import Mathlib

/-!
# Verification of the markdown guideline parser
Shallow embedding of `internal/guidelines/parser.go` from
`mcp-typescript-assistant`: the section splitter, the section-to-guideline
extractor, the orchestration entry point and the validator, together with
theorems settling the specification claims about them.

Strings are modelled as Lean `String` (a wrapper around `List Char`); the
Go regexes `^#+\s+(.+)$` and `^[\*\-\+]\s+(.+)$` are modelled as explicit
capture functions on character lists (leftmost-first, greedy semantics, as in
Go's `regexp` package).  All inputs reaching those functions are single
lines produced by splitting on a newline character, hence newline-free.
`strings.ToLower` is modelled on its ASCII fragment, which is the fragment
all keyword comparisons in the source exercise.
-/

namespace GuidelineParser

/-- RE2's `\s` character class: `[\t\n\f\r ]`. -/
def isRe2Space (c : Char) : Bool :=
  c == ' ' || c == '\t' || c == '\n' || c == '\x0c' || c == '\r'

/-- Go's `unicode.IsSpace` predicate (the characters trimmed by
`strings.TrimSpace`). -/
def isGoSpace (c : Char) : Bool :=
  c == ' ' || c == '\t' || c == '\n' || c == '\x0b' || c == '\x0c' || c == '\r' ||
  c == '\u0085' || c == '\u00A0' || c == '\u1680' ||
  ('\u2000' ≤ c && c ≤ '\u200A') ||
  c == '\u2028' || c == '\u2029' || c == '\u202F' || c == '\u205F' || c == '\u3000'

/-- `strings.TrimSpace` on a character list. -/
def trimChars (cs : List Char) : List Char :=
  ((cs.dropWhile isGoSpace).reverse.dropWhile isGoSpace).reverse

/-- `strings.TrimSpace`. -/
def trimS (s : String) : String :=
  String.mk (trimChars s.data)

/-- ASCII lower-casing of one character (the fragment of Unicode
`ToLower` used by the source's keyword tests). -/
def toLowerC (c : Char) : Char :=
  if 'A' ≤ c && c ≤ 'Z' then Char.ofNat (c.toNat + 32) else c

/-- `strings.ToLower` (ASCII fragment). -/
def lowerS (s : String) : String :=
  String.mk (s.data.map toLowerC)

/-- Boolean infix test on character lists; `containsSub pat s` is Go's
`strings.Contains(s, pat)` lowered to characters. -/
def containsSub (pat : List Char) : List Char → Bool
  | [] => pat.isEmpty
  | c :: rest => pat.isPrefixOf (c :: rest) || containsSub pat rest

/-- `strings.Contains(s, pat)`. -/
def containsS (s pat : String) : Bool :=
  containsSub pat.data s.data

/-- Capture of the header regex `^#+\s+(.+)$` (Go `regexp`,
leftmost-first greedy semantics) on a newline-free line; `none` when the
line does not match. -/
def headerCaptureL (cs : List Char) : Option (List Char) :=
  let hashes := cs.takeWhile (· == '#')
  let rest := cs.dropWhile (· == '#')
  if hashes.isEmpty then none
  else
    let ws := rest.takeWhile isRe2Space
    let tl := rest.dropWhile isRe2Space
    if ws.isEmpty then none
    else if tl.isEmpty then
      -- `\s+` backtracks one character so that `.+` can match it
      if ws.length < 2 then none else some (ws.drop (ws.length - 1))
    else some tl

/-- `headerRegex.MatchString` on one line. -/
def isHeaderLineL (cs : List Char) : Bool :=
  (headerCaptureL cs).isSome

/-- Capture of the list-item regex `^[\*\-\+]\s+(.+)$` on a newline-free
line. -/
def listCaptureL (cs : List Char) : Option (List Char) :=
  match cs with
  | [] => none
  | c :: rest =>
    if c == '*' || c == '-' || c == '+' then
      let ws := rest.takeWhile isRe2Space
      let tl := rest.dropWhile isRe2Space
      if ws.isEmpty then none
      else if tl.isEmpty then
        if ws.length < 2 then none else some (ws.drop (ws.length - 1))
      else some tl
    else none

/-- `strings.Split(s, "\n")` on a character list: the (never empty) list
of newline-free lines. -/
def splitLines : List Char → List (List Char)
  | [] => [[]]
  | c :: rest =>
    if c = '\n' then [] :: splitLines rest
    else
      match splitLines rest with
      | [] => [[c]]
      | l :: ls => (c :: l) :: ls

/-- One iteration of the loop body of `splitIntoSections`: flush the
current section if the line is a header and the section is non-empty,
then append the line plus a newline. -/
def splitStep (acc : List (List Char) × List Char) (line : List Char) :
    List (List Char) × List Char :=
  let flushed :=
    if isHeaderLineL line ∧ acc.2 ≠ [] then (acc.1 ++ [acc.2], ([] : List Char))
    else acc
  (flushed.1, flushed.2 ++ line ++ ['\n'])

/-- `splitIntoSections` lowered to character lists. -/
def splitIntoSectionsL (content : List Char) : List (List Char) :=
  let r := (splitLines content).foldl splitStep ([], [])
  if r.2 ≠ [] then r.1 ++ [r.2] else r.1

/-- `(p *Parser) splitIntoSections(content string) []string`. -/
def splitIntoSections (content : String) : List String :=
  (splitIntoSectionsL content.data).map String.mk

/-- `types.GuidelineExample`. -/
structure GuidelineExample where
  title : String
  good : String
  bad : String
  explanation : String
  deriving Repr, DecidableEq

/-- `types.Guideline`. -/
structure Guideline where
  id : String
  title : String
  description : String
  category : String
  priority : String
  rules : List String
  examples : List GuidelineExample
  deriving Repr, DecidableEq

/-- `types.GuidelineSet`.  The Go struct's `LoadedAt` timestamp is an
opaque string supplied by the caller in this embedding (the source fills
it with `time.Now()`). -/
structure GuidelineSet where
  name : String
  version : String
  description : String
  guidelines : List Guideline
  loadedAt : String
  deriving Repr, DecidableEq

/-- The apostrophe character `U+0027`, written via its code point. -/
def apos : Char := Char.ofNat 39

/-- The literal `don't` appearing in the source's keyword test. -/
def dontPat : String := String.mk ['d', 'o', 'n', apos, 't']

/-- `(p *Parser) inferCategory(title string) string`. -/
def inferCategory (title : String) : String :=
  let titleLower := lowerS title
  if containsS titleLower "type" || containsS titleLower "interface" then "typing"
  else if containsS titleLower "naming" || containsS titleLower "convention" then "naming"
  else if containsS titleLower "function" || containsS titleLower "method" then "functions"
  else if containsS titleLower "import" || containsS titleLower "export" then "modules"
  else if containsS titleLower "error" || containsS titleLower "exception" then "error_handling"
  else if containsS titleLower "async" || containsS titleLower "promise" then "async"
  else "general"

/-- `(p *Parser) inferPriority(title string) string`. -/
def inferPriority (title : String) : String :=
  let titleLower := lowerS title
  if containsS titleLower "must" || containsS titleLower "required" ||
     containsS titleLower "critical" || containsS titleLower "error" then "high"
  else if containsS titleLower "should" || containsS titleLower "recommend" then "medium"
  else if containsS titleLower "could" || containsS titleLower "consider" ||
          containsS titleLower "style" || containsS titleLower "formatting" then "low"
  else "medium"

/-- The classification performed at the closing toggle of a code fence
(`parseSection`, the `if inCodeBlock` arm): store the accumulated content
in `good` or `bad` according to the current example's title, or drop it. -/
def closeExample (ex : GuidelineExample) (content : String) : GuidelineExample :=
  let t := lowerS ex.title
  if containsS t "good" || containsS t "correct" || containsS t "do" then
    { ex with good := trimS content }
  else if containsS t "bad" || containsS t "incorrect" || containsS t dontPat then
    { ex with bad := trimS content }
  else ex

/-- The loop-local state of `parseSection`: the guideline under
construction plus the scan flags. -/
structure PSState where
  guideline : Guideline
  currentContent : String
  inCodeBlock : Bool
  currentExample : Option GuidelineExample
  deriving Repr, DecidableEq

/-- Flush the in-progress example into the guideline when it has a
non-empty `good` or `bad` (the guard used at an example-header line and
at the end of the scan). -/
def flushExample (g : Guideline) : Option GuidelineExample → Guideline
  | some ex => if ex.good ≠ "" ∨ ex.bad ≠ "" then { g with examples := g.examples ++ [ex] } else g
  | none => g

/-- The default example created at an opening fence with no example in
progress. -/
def defaultExample : GuidelineExample :=
  { title := "Code Example", good := "", bad := "", explanation := "" }

/-- The trimmed line starts with three backticks
(`strings.HasPrefix(line, "<three backticks>")`). -/
def fenceLineB (line : String) : Bool :=
  ("```" : String).data.isPrefixOf line.data

/-- The example-header test of the source: the lower-cased line contains
`example`, `good` or `bad`. -/
def exampleHeaderB (line : String) : Bool :=
  containsS (lowerS line) "example" || containsS (lowerS line) "good" ||
    containsS (lowerS line) "bad"

/-- One iteration of the `for _, line := range lines` loop of
`parseSection`, with the same branch order as the source: trim, header,
code fence, in-code-block accumulation, list item, example header,
description/explanation. -/
def parseLine (st : PSState) (rawLine : String) : PSState :=
  let line := trimS rawLine
  match headerCaptureL line.data with
  | some cap =>
    if st.guideline.title = "" then
      let t := String.mk cap
      { st with guideline :=
          { st.guideline with title := t, category := inferCategory t, priority := inferPriority t } }
    else st
  | none =>
    if fenceLineB line then
      if st.inCodeBlock then
        { st with
          currentExample := st.currentExample.map (fun ex => closeExample ex st.currentContent),
          currentContent := "",
          inCodeBlock := false }
      else
        { st with
          inCodeBlock := true,
          currentExample := some (st.currentExample.getD defaultExample) }
    else if st.inCodeBlock then
      { st with currentContent := st.currentContent ++ line ++ "\n" }
    else
      match listCaptureL line.data with
      | some cap =>
        { st with guideline :=
            { st.guideline with rules := st.guideline.rules ++ [trimS (String.mk cap)] } }
      | none =>
        if exampleHeaderB line then
          { st with
            guideline := flushExample st.guideline st.currentExample,
            currentExample := some { title := line, good := "", bad := "", explanation := "" } }
        else if line ≠ "" ∧ st.guideline.description = "" then
          { st with guideline := { st.guideline with description := line } }
        else if line ≠ "" ∧ (st.currentExample.map GuidelineExample.explanation = some "") then
          { st with currentExample := st.currentExample.map (fun ex => { ex with explanation := line }) }
        else st

/-- The zero-valued guideline `parseSection` starts from, with the
formatted identifier and the default priority. -/
def initGuideline (id : Nat) : Guideline :=
  { id := "guideline_" ++ toString id, title := "", description := "", category := "",
    priority := "medium", rules := [], examples := [] }

/-- `(p *Parser) parseSection(section string, id int) *types.Guideline`.
Returns `none` exactly on the source's `len(lines) == 0` branch. -/
def psInit (id : Nat) : PSState :=
  { guideline := initGuideline id, currentContent := "", inCodeBlock := false,
    currentExample := none }

/-- The post-scan fixups of `parseSection`: flush a final example with
non-empty `good` or `bad`, then default the description to the title. -/
def psFinish (st : PSState) : Guideline :=
  let g := flushExample st.guideline st.currentExample
  if g.description = "" ∧ g.title ≠ "" then { g with description := g.title } else g

def parseSection (sectionText : String) (id : Nat) : Option Guideline :=
  let lines := splitLines sectionText.data
  if lines.isEmpty then none
  else some (psFinish (lines.foldl (fun st l => parseLine st (String.mk l)) (psInit id)))

/-- `(p *Parser) parseContent(content string) []types.Guideline`. -/
def parseContent (content : String) : List Guideline :=
  (splitIntoSections content).enum.filterMap (fun p => parseSection p.2 (p.1 + 1))

/-- `(p *Parser) ParseGuidelines(content, name, guidelineType string)`.
The Go function's `error` result is modelled by `Except String`; the
`time.Now()` timestamp is the extra `loadedAt` argument. -/
def ParseGuidelines (content name guidelineType loadedAt : String) :
    Except String GuidelineSet :=
  let gt := if guidelineType = "" then "general" else guidelineType
  Except.ok
    { name := name, version := "1.0.0", description := gt ++ " coding guidelines",
      guidelines := parseContent content, loadedAt := loadedAt }

/-- The body of the `for i, guideline := range guidelineSet.Guidelines`
loop of `ValidateGuidelines`: the three per-guideline warning appends,
for the (0-based index, guideline) pair `p`. -/
def validateStep (ws : List String) (p : Nat × Guideline) : List String :=
  let i := p.1
  let g := p.2
  let ws := if g.title = "" then ws ++ ["Guideline " ++ toString (i + 1) ++ " has no title"] else ws
  let ws :=
    if g.description = "" then
      ws ++ ["Guideline " ++ toString (i + 1) ++ " (" ++ g.title ++ ") has no description"]
    else ws
  if g.rules.length = 0 ∧ g.examples.length = 0 then
    ws ++ ["Guideline " ++ toString (i + 1) ++ " (" ++ g.title ++ ") has no rules or examples"]
  else ws

/-- `(p *Parser) ValidateGuidelines(guidelineSet *types.GuidelineSet) []string`,
embedded as the source writes it: sequential appends to a warning list. -/
def ValidateGuidelines (s : GuidelineSet) : List String :=
  let warnings : List String := []
  let warnings := if s.name = "" then warnings ++ ["Guideline set name is empty"] else warnings
  let warnings :=
    if s.guidelines.length = 0 then warnings ++ ["No guidelines found in the set"] else warnings
  s.guidelines.enum.foldl validateStep warnings

/-! ## String-level helper lemmas -/

theorem mk_append (a b : List Char) : String.mk a ++ String.mk b = String.mk (a ++ b) := rfl

theorem mk_data (s : String) : String.mk s.data = s := by cases s; rfl

theorem foldl_append_mk (ls : List (List Char)) :
    ∀ a : List Char,
      (ls.map String.mk).foldl (fun r s => r ++ s) (String.mk a) = String.mk (a ++ ls.flatten) := by
  induction ls with
  | nil => intro a; simp
  | cons l ls ih =>
    intro a
    simp only [List.map_cons, List.foldl_cons, mk_append, ih, List.flatten_cons,
      List.append_assoc]

theorem join_map_mk (ls : List (List Char)) :
    String.join (ls.map String.mk) = String.mk ls.flatten := by
  have h := foldl_append_mk ls []
  simpa [String.join] using h

/-! ## Lemmas about the section splitter -/

theorem splitLines_ne_nil (cs : List Char) : splitLines cs ≠ [] := by
  induction cs with
  | nil => simp [splitLines]
  | cons c rest ih =>
    by_cases h : c = '\n'
    · simp [splitLines, h]
    · simp only [splitLines, if_neg h]
      cases hr : splitLines rest with
      | nil => simp
      | cons l ls => simp

theorem splitLines_join (cs : List Char) :
    ((splitLines cs).map (· ++ ['\n'])).flatten = cs ++ ['\n'] := by
  induction cs with
  | nil => simp [splitLines]
  | cons c rest ih =>
    by_cases h : c = '\n'
    · simp [splitLines, h, ih]
    · simp only [splitLines, if_neg h]
      cases hr : splitLines rest with
      | nil => exact absurd hr (splitLines_ne_nil rest)
      | cons l ls =>
        rw [hr] at ih
        simp only [List.map_cons, List.flatten_cons, List.cons_append] at ih ⊢
        rw [ih]

theorem splitStep_fold (lines : List (List Char)) :
    ∀ (s : List (List Char)) (cur : List Char),
      (lines.foldl splitStep (s, cur)).1.flatten ++ (lines.foldl splitStep (s, cur)).2
        = s.flatten ++ cur ++ (lines.map (· ++ ['\n'])).flatten := by
  induction lines with
  | nil => intro s cur; simp
  | cons l ls ih =>
    intro s cur
    simp only [List.foldl_cons, List.map_cons, List.flatten_cons]
    by_cases h : isHeaderLineL l = true ∧ cur ≠ []
    · simp only [splitStep, if_pos h, ih, List.flatten_append, List.flatten_cons,
        List.flatten_nil, List.append_nil, List.nil_append, List.append_assoc]
    · simp only [splitStep, if_neg h, ih, List.append_assoc]

theorem splitStep_fold_noHeader :
    ∀ lines : List (List Char), (∀ l ∈ lines, isHeaderLineL l = false) →
      ∀ (s : List (List Char)) (cur : List Char),
        lines.foldl splitStep (s, cur) = (s, cur ++ (lines.map (· ++ ['\n'])).flatten) := by
  intro lines
  induction lines with
  | nil => intro _ s cur; simp
  | cons l ls ih =>
    intro h s cur
    have hl : isHeaderLineL l = false := h l (by simp)
    have hls : ∀ x ∈ ls, isHeaderLineL x = false := fun x hx => h x (by simp [hx])
    simp only [List.foldl_cons, List.map_cons, List.flatten_cons]
    rw [show splitStep (s, cur) l = (s, cur ++ l ++ ['\n']) by simp [splitStep, hl]]
    rw [ih hls]
    simp [List.append_assoc]

/-- The input has zero lines matching the heading pattern. -/
def noHeaderLinesB (content : String) : Bool :=
  (splitLines content.data).all (fun l => !(isHeaderLineL l))

/-- Claim C1 (corrected): concatenating the sections returned by the
splitter does not reproduce the input exactly; it reproduces the input
followed by one extra trailing newline, because every line (including a
final line with no newline terminator) is re-emitted with a `"\n"`
appended. -/
theorem C1_split_concat (content : String) :
    String.join (splitIntoSections content) = content ++ "\n" := by
  unfold splitIntoSections splitIntoSectionsL
  set r := (splitLines content.data).foldl splitStep ([], []) with hr
  have key : r.1.flatten ++ r.2 = content.data ++ ['\n'] := by
    have h := splitStep_fold (splitLines content.data) [] []
    rw [← hr] at h
    simpa [splitLines_join] using h
  have hgoal : content ++ "\n" = String.mk (content.data ++ ['\n']) := by
    conv_lhs => rw [← mk_data content]
    rfl
  by_cases h2 : r.2 ≠ []
  · rw [if_pos h2, join_map_mk, hgoal]
    rw [List.flatten_append]
    simp [key]
  · rw [if_neg h2, join_map_mk, hgoal]
    rw [not_not] at h2
    rw [h2] at key
    simp only [List.append_nil] at key
    rw [key]

/-- Claim C1, counterexample: on input `"x"` (a single line with no
trailing newline) the concatenation of the sections is `"x\n"`, not the
original input. -/
theorem C1_counterexample : String.join (splitIntoSections "x") ≠ "x" := by decide

/-- Claim C6 (corrected): on input with zero heading lines the splitter
returns exactly one section, but that section is the full input plus one
extra trailing newline, not the input itself. -/
theorem C6_no_heading_single_section (content : String)
    (h : noHeaderLinesB content = true) :
    splitIntoSections content = [content ++ "\n"] := by
  have h' : ∀ l ∈ splitLines content.data, isHeaderLineL l = false := by
    intro l hl
    have := (List.all_eq_true.mp h) l hl
    simpa using this
  unfold splitIntoSections splitIntoSectionsL
  rw [splitStep_fold_noHeader _ h' [] []]
  simp only [List.nil_append, splitLines_join]
  have hne : content.data ++ ['\n'] ≠ [] := by simp
  rw [if_pos hne]
  simp only [List.nil_append, List.map_cons, List.map_nil]
  rw [show String.mk (content.data ++ ['\n']) = content ++ "\n" by
    conv_rhs => rw [← mk_data content]
    rfl]

/-- Claim C6, witness: `"a"` has no heading lines and splits into the
single section `"a\n"`. -/
theorem C6_witness :
    noHeaderLinesB "a" = true ∧ splitIntoSections "a" = ["a" ++ "\n"] :=
  ⟨by decide, C6_no_heading_single_section "a" (by decide)⟩

/-- Claim C6, counterexample: `"a"` contains zero heading lines, yet the
returned section is not equal to the full input `"a"`. -/
theorem C6_counterexample :
    noHeaderLinesB "a" = true ∧ splitIntoSections "a" ≠ ["a"] := by
  constructor
  · decide
  · decide

/-! ## Invariant infrastructure for the section scan -/

theorem foldl_preserve {σ α : Type _} (P : σ → Prop) (f : σ → α → σ)
    (hf : ∀ s a, P s → P (f s a)) :
    ∀ (l : List α) (s : σ), P s → P (l.foldl f s) := by
  intro l
  induction l with
  | nil => intro s hs; exact hs
  | cons a as ih => intro s hs; exact ih (f s a) (hf s a hs)

theorem flushExample_id (g : Guideline) (e : Option GuidelineExample) :
    (flushExample g e).id = g.id := by
  cases e with
  | none => rfl
  | some ex =>
    simp only [flushExample]
    split <;> rfl

theorem flushExample_meta (g : Guideline) (e : Option GuidelineExample) :
    (flushExample g e).title = g.title ∧ (flushExample g e).category = g.category ∧
      (flushExample g e).priority = g.priority ∧
      (flushExample g e).description = g.description ∧ (flushExample g e).rules = g.rules := by
  cases e with
  | none => exact ⟨rfl, rfl, rfl, rfl, rfl⟩
  | some ex =>
    simp only [flushExample]
    split <;> exact ⟨rfl, rfl, rfl, rfl, rfl⟩

theorem flushExample_examples (g : Guideline) (e : Option GuidelineExample) :
    (flushExample g e).examples = g.examples ∨
      ∃ ex, e = some ex ∧ (ex.good ≠ "" ∨ ex.bad ≠ "") ∧
        (flushExample g e).examples = g.examples ++ [ex] := by
  cases e with
  | none => exact Or.inl rfl
  | some ex =>
    simp only [flushExample]
    split
    · exact Or.inr ⟨ex, rfl, by assumption, rfl⟩
    · exact Or.inl rfl

/-! ### Branch-computation lemmas for `parseLine` -/

theorem parseLine_header_set (st : PSState) (l : String) (cap : List Char)
    (hc : headerCaptureL (trimS l).data = some cap) (ht : st.guideline.title = "") :
    parseLine st l = { st with guideline :=
      { st.guideline with
          title := String.mk cap
          category := inferCategory (String.mk cap)
          priority := inferPriority (String.mk cap) } } := by
  simp [parseLine, hc, ht]

theorem parseLine_header_skip (st : PSState) (l : String) (cap : List Char)
    (hc : headerCaptureL (trimS l).data = some cap) (ht : st.guideline.title ≠ "") :
    parseLine st l = st := by
  simp [parseLine, hc, ht]

theorem parseLine_fence_close (st : PSState) (l : String)
    (hc : headerCaptureL (trimS l).data = none) (hf : fenceLineB (trimS l) = true)
    (hcb : st.inCodeBlock = true) :
    parseLine st l = { st with
      currentExample := st.currentExample.map (fun ex => closeExample ex st.currentContent),
      currentContent := "", inCodeBlock := false } := by
  simp [parseLine, hc, hf, hcb]

theorem parseLine_fence_open (st : PSState) (l : String)
    (hc : headerCaptureL (trimS l).data = none) (hf : fenceLineB (trimS l) = true)
    (hcb : st.inCodeBlock = false) :
    parseLine st l = { st with
      inCodeBlock := true
      currentExample := some (st.currentExample.getD defaultExample) } := by
  simp [parseLine, hc, hf, hcb]

theorem parseLine_accumulate (st : PSState) (l : String)
    (hc : headerCaptureL (trimS l).data = none) (hf : fenceLineB (trimS l) = false)
    (hcb : st.inCodeBlock = true) :
    parseLine st l = { st with currentContent := st.currentContent ++ trimS l ++ "\n" } := by
  simp [parseLine, hc, hf, hcb]

theorem parseLine_list (st : PSState) (l : String) (cap : List Char)
    (hc : headerCaptureL (trimS l).data = none) (hf : fenceLineB (trimS l) = false)
    (hcb : st.inCodeBlock = false) (hl : listCaptureL (trimS l).data = some cap) :
    parseLine st l = { st with guideline :=
      { st.guideline with rules := st.guideline.rules ++ [trimS (String.mk cap)] } } := by
  simp [parseLine, hc, hf, hcb, hl]

theorem parseLine_example_header (st : PSState) (l : String)
    (hc : headerCaptureL (trimS l).data = none) (hf : fenceLineB (trimS l) = false)
    (hcb : st.inCodeBlock = false) (hl : listCaptureL (trimS l).data = none)
    (he : exampleHeaderB (trimS l) = true) :
    parseLine st l = { st with
      guideline := flushExample st.guideline st.currentExample,
      currentExample := some { title := trimS l, good := "", bad := "", explanation := "" } } := by
  simp [parseLine, hc, hf, hcb, hl, he]

theorem parseLine_description (st : PSState) (l : String)
    (hc : headerCaptureL (trimS l).data = none) (hf : fenceLineB (trimS l) = false)
    (hcb : st.inCodeBlock = false) (hl : listCaptureL (trimS l).data = none)
    (he : exampleHeaderB (trimS l) = false)
    (hd : trimS l ≠ "" ∧ st.guideline.description = "") :
    parseLine st l = { st with guideline := { st.guideline with description := trimS l } } := by
  simp [parseLine, hc, hf, hcb, hl, he, hd.1, hd.2]

theorem parseLine_explanation (st : PSState) (l : String)
    (hc : headerCaptureL (trimS l).data = none) (hf : fenceLineB (trimS l) = false)
    (hcb : st.inCodeBlock = false) (hl : listCaptureL (trimS l).data = none)
    (he : exampleHeaderB (trimS l) = false)
    (hd : ¬(trimS l ≠ "" ∧ st.guideline.description = ""))
    (hx : trimS l ≠ "" ∧ st.currentExample.map GuidelineExample.explanation = some "") :
    parseLine st l =
      { st with currentExample := st.currentExample.map (fun ex => { ex with explanation := trimS l }) } := by
  simp only [parseLine, hc, hf, hcb, hl, he, Bool.false_eq_true, if_false]
  rw [if_neg hd, if_pos hx]

theorem parseLine_skip (st : PSState) (l : String)
    (hc : headerCaptureL (trimS l).data = none) (hf : fenceLineB (trimS l) = false)
    (hcb : st.inCodeBlock = false) (hl : listCaptureL (trimS l).data = none)
    (he : exampleHeaderB (trimS l) = false)
    (hd : ¬(trimS l ≠ "" ∧ st.guideline.description = ""))
    (hx : ¬(trimS l ≠ "" ∧ st.currentExample.map GuidelineExample.explanation = some "")) :
    parseLine st l = st := by
  simp only [parseLine, hc, hf, hcb, hl, he, Bool.false_eq_true, if_false]
  rw [if_neg hd, if_neg hx]

/-- Every way `parseLine` can change the guideline under construction. -/
theorem parseLine_guideline_shape (st : PSState) (l : String) :
    (parseLine st l).guideline = st.guideline ∨
    (∃ cap, headerCaptureL (trimS l).data = some cap ∧ st.guideline.title = "" ∧
      (parseLine st l).guideline = { st.guideline with
        title := String.mk cap
        category := inferCategory (String.mk cap)
        priority := inferPriority (String.mk cap) }) ∨
    (∃ r, (parseLine st l).guideline = { st.guideline with rules := st.guideline.rules ++ [r] }) ∨
    ((parseLine st l).guideline = flushExample st.guideline st.currentExample) ∨
    ((parseLine st l).guideline = { st.guideline with description := trimS l }) := by
  cases hc : headerCaptureL (trimS l).data with
  | some cap =>
    by_cases ht : st.guideline.title = ""
    · exact Or.inr (Or.inl ⟨cap, rfl, ht, by rw [parseLine_header_set st l cap hc ht]⟩)
    · exact Or.inl (by rw [parseLine_header_skip st l cap hc ht])
  | none =>
    by_cases hf : fenceLineB (trimS l) = true
    · cases hcb : st.inCodeBlock with
      | true => exact Or.inl (by rw [parseLine_fence_close st l hc hf hcb])
      | false => exact Or.inl (by rw [parseLine_fence_open st l hc hf hcb])
    · rw [Bool.not_eq_true] at hf
      cases hcb : st.inCodeBlock with
      | true => exact Or.inl (by rw [parseLine_accumulate st l hc hf hcb])
      | false =>
        cases hl : listCaptureL (trimS l).data with
        | some cap =>
          exact Or.inr (Or.inr (Or.inl ⟨trimS (String.mk cap),
            by rw [parseLine_list st l cap hc hf hcb hl]⟩))
        | none =>
          by_cases he : exampleHeaderB (trimS l) = true
          · exact Or.inr (Or.inr (Or.inr (Or.inl
              (by rw [parseLine_example_header st l hc hf hcb hl he]))))
          · rw [Bool.not_eq_true] at he
            by_cases hd : trimS l ≠ "" ∧ st.guideline.description = ""
            · exact Or.inr (Or.inr (Or.inr (Or.inr
                (by rw [parseLine_description st l hc hf hcb hl he hd]))))
            · by_cases hx : trimS l ≠ "" ∧ st.currentExample.map GuidelineExample.explanation = some ""
              · exact Or.inl (by rw [parseLine_explanation st l hc hf hcb hl he hd hx])
              · exact Or.inl (by rw [parseLine_skip st l hc hf hcb hl he hd hx])

theorem parseLine_id (st : PSState) (l : String) :
    (parseLine st l).guideline.id = st.guideline.id := by
  have hs := parseLine_guideline_shape st l
  cases hs with
  | inl h => rw [h]
  | inr hs =>
    cases hs with
    | inl h2 =>
      obtain ⟨cap, hcap, htl, h⟩ := h2
      rw [h]
    | inr hs =>
      cases hs with
      | inl h3 =>
        obtain ⟨r, h⟩ := h3
        rw [h]
      | inr hs =>
        cases hs with
        | inl h4 => rw [h4, flushExample_id]
        | inr h5 => rw [h5]

theorem descFallback_id (g : Guideline) :
    ({ g with description := g.title } : Guideline).id = g.id := rfl

theorem psFinish_id (st : PSState) : (psFinish st).id = st.guideline.id := by
  simp only [psFinish]
  split
  · exact flushExample_id _ _
  · exact flushExample_id _ _

theorem parseSection_some (s : String) (n : Nat) :
    ∃ g, parseSection s n = some g ∧ g.id = "guideline_" ++ toString n := by
  unfold parseSection
  cases h : splitLines s.data with
  | nil => exact absurd h (splitLines_ne_nil s.data)
  | cons l ls =>
    simp only [h, List.isEmpty_cons, Bool.false_eq_true, if_false]
    refine ⟨_, rfl, ?_⟩
    rw [psFinish_id]
    exact foldl_preserve (fun st : PSState => st.guideline.id = "guideline_" ++ toString n)
      _ (fun st a hst => by
        show (parseLine st (String.mk a)).guideline.id = "guideline_" ++ toString n
        rw [parseLine_id]
        exact hst) (l :: ls) _ rfl

theorem enumFrom_filterMap_ids (sections : List String) :
    ∀ k : Nat,
      (((List.enumFrom k sections).filterMap (fun p => parseSection p.2 (p.1 + 1))).map Guideline.id)
        = (List.range' (k + 1) sections.length).map (fun i => "guideline_" ++ toString i) := by
  induction sections with
  | nil => intro k; simp
  | cons s ss ih =>
    intro k
    obtain ⟨g, hg, hid⟩ := parseSection_some s (k + 1)
    simp only [List.enumFrom, List.filterMap_cons, hg, List.map_cons, hid, List.length_cons,
      List.range'_succ]
    rw [ih (k + 1)]

/-- Claim C5 (confirmed): every emitted guideline's identifier is
`guideline_<n>` for `n` the 1-based ordinal of its originating section;
and `parseSection` reports "no guideline" exactly on the source's
`len(lines) == 0` check — a condition that never holds, since splitting
any string on newlines yields at least one line, so no section is ever
skipped and ids carry no gaps. -/
theorem C5_guideline_ids (content : String) :
    (parseContent content).map Guideline.id
        = (List.range' 1 (splitIntoSections content).length).map
            (fun i => "guideline_" ++ toString i) ∧
      (∀ s n, parseSection s n = none ↔ (splitLines s.data).isEmpty = true) := by
  constructor
  · have h := enumFrom_filterMap_ids (splitIntoSections content) 0
    simpa [parseContent, List.enum] using h
  · intro s n
    constructor
    · intro hnone
      obtain ⟨g, hg, _⟩ := parseSection_some s n
      rw [hg] at hnone
      cases hnone
    · intro hemp
      cases h : splitLines s.data with
      | nil => exact absurd h (splitLines_ne_nil s.data)
      | cons l ls => rw [h] at hemp; cases hemp

/-- Claim C7 (confirmed): `ParseGuidelines` always succeeds, with the
given name, version `1.0.0`, and description `"<kind> coding guidelines"`
where an empty kind defaults to `general`. -/
theorem C7_parse_guidelines_total (content name guidelineType loadedAt : String) :
    ∃ s, ParseGuidelines content name guidelineType loadedAt = Except.ok s ∧
      s.name = name ∧ s.version = "1.0.0" ∧
      s.description = (if guidelineType = "" then "general" else guidelineType)
        ++ " coding guidelines" ∧
      s.guidelines = parseContent content := by
  exact ⟨_, rfl, rfl, rfl, rfl, rfl⟩

/-! ## The validator -/

/-- The per-guideline warnings of the validator, in the order the
specification lists them: missing title, missing description, missing
rules and examples. -/
def guidelineWarnings (i : Nat) (g : Guideline) : List String :=
  (if g.title = "" then ["Guideline " ++ toString (i + 1) ++ " has no title"] else []) ++
  (if g.description = "" then
    ["Guideline " ++ toString (i + 1) ++ " (" ++ g.title ++ ") has no description"] else []) ++
  (if g.rules.length = 0 ∧ g.examples.length = 0 then
    ["Guideline " ++ toString (i + 1) ++ " (" ++ g.title ++ ") has no rules or examples"] else [])

/-- The validator's output in the shape the specification describes it:
name warning, then count warning, then the per-guideline warnings in
guideline order. -/
def validateSpecForm (s : GuidelineSet) : List String :=
  (if s.name = "" then ["Guideline set name is empty"] else []) ++
  (if s.guidelines.length = 0 then ["No guidelines found in the set"] else []) ++
  (s.guidelines.enum.map (fun p => guidelineWarnings p.1 p.2)).flatten

theorem validateStep_eq (ws : List String) (p : Nat × Guideline) :
    validateStep ws p = ws ++ guidelineWarnings p.1 p.2 := by
  unfold validateStep guidelineWarnings
  split_ifs <;> simp_all [List.append_assoc]

theorem foldl_validateStep (l : List (Nat × Guideline)) :
    ∀ ws : List String,
      l.foldl validateStep ws = ws ++ (l.map (fun p => guidelineWarnings p.1 p.2)).flatten := by
  induction l with
  | nil => intro ws; simp
  | cons p ps ih =>
    intro ws
    simp only [List.foldl_cons, validateStep_eq, ih, List.map_cons, List.flatten_cons,
      List.append_assoc]

/-- Claim C9 (confirmed): the validator emits warnings in the exact
order name-check, count-check, then per-guideline title / description /
rules-and-examples checks; on a set with empty name and no guidelines it
returns exactly the two warnings in order.  It is a pure function of the
set (the set is left unchanged) and never fails. -/
theorem C9_validator_order (s : GuidelineSet) :
    ValidateGuidelines s = validateSpecForm s ∧
      (s.name = "" → s.guidelines = [] →
        ValidateGuidelines s
          = ["Guideline set name is empty", "No guidelines found in the set"]) := by
  have hmain : ValidateGuidelines s = validateSpecForm s := by
    unfold ValidateGuidelines validateSpecForm
    rw [foldl_validateStep]
    split_ifs <;> simp
  refine ⟨hmain, ?_⟩
  intro hname hguides
  rw [hmain]
  unfold validateSpecForm
  rw [hname, hguides]
  simp

/-- Claim C9, witness: a concrete set with empty name and no guidelines
yields exactly the two warnings. -/
theorem C9_witness :
    ValidateGuidelines
        { name := "", version := "1.0.0", description := "d", guidelines := [], loadedAt := "t" }
      = ["Guideline set name is empty", "No guidelines found in the set"] :=
  (C9_validator_order
    { name := "", version := "1.0.0", description := "d", guidelines := [], loadedAt := "t" }).2
    rfl rfl

/-! ## Category, priority and example invariants (claims C4 and C8) -/

/-- The seven category values `inferCategory` can produce. -/
def catList : List String :=
  ["typing", "naming", "functions", "modules", "error_handling", "async", "general"]

/-- The three priority values `inferPriority` can produce. -/
def prioList : List String := ["high", "medium", "low"]

theorem inferCategory_mem (t : String) : inferCategory t ∈ catList := by
  simp only [inferCategory, catList]
  split_ifs <;> simp

theorem inferPriority_mem (t : String) : inferPriority t ∈ prioList := by
  simp only [inferPriority, prioList]
  split_ifs <;> simp

theorem headerCaptureL_ne_nil {cs cap : List Char} (h : headerCaptureL cs = some cap) :
    cap ≠ [] := by
  simp only [headerCaptureL] at h
  split_ifs at h with h1 h2 h3 h4
  · injection h with heq
    intro hc
    have hlen := congrArg List.length heq
    rw [hc] at hlen
    rw [List.length_drop] at hlen
    simp at hlen
    omega
  · injection h with heq
    intro hc
    rw [hc] at heq
    rw [heq] at h3
    simp at h3

theorem mk_ne_empty {cs : List Char} (h : cs ≠ []) : String.mk cs ≠ "" := by
  intro hc
  exact h (congrArg String.data hc)

/-- The metadata invariant maintained over the scan: either no heading
has been seen yet (title, category empty, priority at its default), or
the title is set and category and priority are proper enum values. -/
def GuidelineMeta (g : Guideline) : Prop :=
  (g.title = "" ∧ g.category = "" ∧ g.priority = "medium") ∨
  (g.title ≠ "" ∧ g.category ∈ catList ∧ g.priority ∈ prioList)

theorem parseLine_meta (st : PSState) (l : String) (h : GuidelineMeta st.guideline) :
    GuidelineMeta (parseLine st l).guideline := by
  have hs := parseLine_guideline_shape st l
  cases hs with
  | inl heq => rw [heq]; exact h
  | inr hs =>
    cases hs with
    | inl h2 =>
      obtain ⟨cap, hcap, htl, heq⟩ := h2
      rw [heq]
      exact Or.inr ⟨mk_ne_empty (headerCaptureL_ne_nil hcap), inferCategory_mem _,
        inferPriority_mem _⟩
    | inr hs =>
      cases hs with
      | inl h3 =>
        obtain ⟨r, heq⟩ := h3
        rw [heq]
        exact h
      | inr hs =>
        cases hs with
        | inl h4 =>
          rw [h4]
          have hm := flushExample_meta st.guideline st.currentExample
          unfold GuidelineMeta at h ⊢
          rw [hm.1, hm.2.1, hm.2.2.1]
          exact h
        | inr h5 =>
          rw [h5]
          exact h

theorem psFinish_meta (st : PSState) (h : GuidelineMeta st.guideline) :
    GuidelineMeta (psFinish st) := by
  have hflush : GuidelineMeta (flushExample st.guideline st.currentExample) := by
    have hm := flushExample_meta st.guideline st.currentExample
    unfold GuidelineMeta at h ⊢
    rw [hm.1, hm.2.1, hm.2.2.1]
    exact h
  simp only [psFinish]
  split
  · exact hflush
  · exact hflush

theorem parseSection_meta {s : String} {n : Nat} {g : Guideline}
    (h : parseSection s n = some g) : GuidelineMeta g := by
  unfold parseSection at h
  cases hl : splitLines s.data with
  | nil => exact absurd hl (splitLines_ne_nil s.data)
  | cons l ls =>
    simp only [hl, List.isEmpty_cons, Bool.false_eq_true, if_false] at h
    injection h with h
    subst h
    refine psFinish_meta _ ?_
    exact foldl_preserve (fun st : PSState => GuidelineMeta st.guideline)
      _ (fun st a hst => by
        show GuidelineMeta (parseLine st (String.mk a)).guideline
        exact parseLine_meta st (String.mk a) hst) (l :: ls) _ (Or.inl ⟨rfl, rfl, rfl⟩)

/-- Claim C4 (corrected): the priority of every emitted guideline is one
of `high`, `medium`, `low`; the category is one of the seven enumerated
values whenever the guideline's section contained a heading line, but for
a section with no heading line the category remains the empty string
(the Go zero value, never overwritten), together with an empty title. -/
theorem C4_priority_category (content : String) (g : Guideline)
    (hg : g ∈ parseContent content) :
    (g.priority = "high" ∨ g.priority = "medium" ∨ g.priority = "low") ∧
      (g.category = "typing" ∨ g.category = "naming" ∨ g.category = "functions" ∨
        g.category = "modules" ∨ g.category = "error_handling" ∨ g.category = "async" ∨
        g.category = "general" ∨ (g.category = "" ∧ g.title = "")) := by
  unfold parseContent at hg
  obtain ⟨p, hp, hps⟩ := List.mem_filterMap.mp hg
  have hm := parseSection_meta hps
  rcases hm with ⟨ht, hc, hp2⟩ | ⟨ht, hc, hp2⟩
  · rw [hp2]
    exact ⟨by simp, Or.inr (Or.inr (Or.inr (Or.inr (Or.inr (Or.inr (Or.inr ⟨hc, ht⟩))))))⟩
  · constructor
    · simpa [prioList] using hp2
    · have hc' : g.category = "typing" ∨ g.category = "naming" ∨ g.category = "functions" ∨
          g.category = "modules" ∨ g.category = "error_handling" ∨ g.category = "async" ∨
          g.category = "general" := by simpa [catList] using hc
      tauto

/-- A concrete guideline produced from the heading-free input
`"hello"`. -/
def c4Guideline : Guideline :=
  { id := "guideline_1", title := "", description := "hello", category := "",
    priority := "medium", rules := [], examples := [] }

/-- Claim C4, witness: the theorem applied to the guideline produced
from `"hello"`. -/
theorem C4_witness :
    (c4Guideline.priority = "high" ∨ c4Guideline.priority = "medium" ∨
      c4Guideline.priority = "low") ∧
      (c4Guideline.category = "typing" ∨ c4Guideline.category = "naming" ∨
        c4Guideline.category = "functions" ∨ c4Guideline.category = "modules" ∨
        c4Guideline.category = "error_handling" ∨ c4Guideline.category = "async" ∨
        c4Guideline.category = "general" ∨
        (c4Guideline.category = "" ∧ c4Guideline.title = "")) :=
  C4_priority_category "hello" c4Guideline (by decide)

/-- Claim C4, counterexample: the input `"hello"` (one section, no
heading line) yields a guideline whose category is the empty string, so
the category is not always one of the seven enumerated values. -/
theorem C4_counterexample :
    ((parseContent "hello").all (fun g => !(g.category == ""))) = false := by decide

/-- The example invariant of claim C8: every stored example has a
non-empty `good` or a non-empty `bad`. -/
def ExamplesOk (g : Guideline) : Prop :=
  ∀ e ∈ g.examples, e.good ≠ "" ∨ e.bad ≠ ""

theorem flushExample_examplesOk (g : Guideline) (e : Option GuidelineExample)
    (h : ExamplesOk g) : ExamplesOk (flushExample g e) := by
  rcases flushExample_examples g e with heq | ⟨ex, hex, hgd, heq⟩
  · unfold ExamplesOk at h ⊢
    rw [heq]
    exact h
  · unfold ExamplesOk at h ⊢
    rw [heq]
    intro x hx
    rcases List.mem_append.mp hx with h1 | h2
    · exact h x h1
    · have : x = ex := by simpa using h2
      rw [this]
      exact hgd

theorem parseLine_examplesOk (st : PSState) (l : String) (h : ExamplesOk st.guideline) :
    ExamplesOk (parseLine st l).guideline := by
  have hs := parseLine_guideline_shape st l
  cases hs with
  | inl heq => rw [heq]; exact h
  | inr hs =>
    cases hs with
    | inl h2 =>
      obtain ⟨cap, hcap, htl, heq⟩ := h2
      rw [heq]
      exact h
    | inr hs =>
      cases hs with
      | inl h3 =>
        obtain ⟨r, heq⟩ := h3
        rw [heq]
        exact h
      | inr hs =>
        cases hs with
        | inl h4 =>
          rw [h4]
          exact flushExample_examplesOk _ _ h
        | inr h5 =>
          rw [h5]
          exact h

theorem psFinish_examplesOk (st : PSState) (h : ExamplesOk st.guideline) :
    ExamplesOk (psFinish st) := by
  have h2 := flushExample_examplesOk st.guideline st.currentExample h
  simp only [psFinish]
  split
  · exact h2
  · exact h2

theorem parseSection_examplesOk {s : String} {n : Nat} {g : Guideline}
    (h : parseSection s n = some g) : ExamplesOk g := by
  unfold parseSection at h
  cases hl : splitLines s.data with
  | nil => exact absurd hl (splitLines_ne_nil s.data)
  | cons l ls =>
    simp only [hl, List.isEmpty_cons, Bool.false_eq_true, if_false] at h
    injection h with h
    subst h
    refine psFinish_examplesOk _ ?_
    exact foldl_preserve (fun st : PSState => ExamplesOk st.guideline)
      _ (fun st a hst => by
        show ExamplesOk (parseLine st (String.mk a)).guideline
        exact parseLine_examplesOk st (String.mk a) hst) (l :: ls) _
      (fun e he => absurd he (List.not_mem_nil e))

/-- Claim C8 (confirmed): every example entry of every emitted guideline
has a non-empty `good` or a non-empty `bad`; an in-progress example is
flushed, at an example-header line or at end of scan, only under that
guard. -/
theorem C8_examples_nonempty (content : String) (g : Guideline)
    (hg : g ∈ parseContent content) (e : GuidelineExample) (he : e ∈ g.examples) :
    e.good ≠ "" ∨ e.bad ≠ "" := by
  unfold parseContent at hg
  obtain ⟨p, hp, hps⟩ := List.mem_filterMap.mp hg
  exact parseSection_examplesOk hps e he

/-- The guideline produced from `"Good Example"` followed by a fenced
code block with body `code`. -/
def c8Guideline : Guideline :=
  { id := "guideline_1", title := "", description := "", category := "",
    priority := "medium", rules := [],
    examples := [{ title := "Good Example", good := "code", bad := "", explanation := "" }] }

/-- Claim C8, witness: the theorem applied to the example stored while
parsing a small document with one good code block. -/
theorem C8_witness :
    ({ title := "Good Example", good := "code", bad := "", explanation := "" } :
        GuidelineExample).good ≠ "" ∨
      ({ title := "Good Example", good := "code", bad := "", explanation := "" } :
        GuidelineExample).bad ≠ "" :=
  C8_examples_nonempty "Good Example\n```\ncode\n```\n" c8Guideline (by decide)
    { title := "Good Example", good := "code", bad := "", explanation := "" } (by decide)

/-! ## Classification at the closing fence (claims C2, C10) -/

theorem containsSub_correct (pat : List Char) :
    ∀ s : List Char, containsSub pat s = true ↔ pat <:+: s := by
  intro s
  induction s with
  | nil =>
    simp only [containsSub, List.isEmpty_iff, List.infix_nil]
  | cons c r ih =>
    simp only [containsSub, Bool.or_eq_true, List.isPrefixOf_iff_prefix, ih,
      List.infix_cons_iff]

theorem contains_do_of_contains_dont (t : String) (h : containsS t dontPat = true) :
    containsS t "do" = true := by
  unfold containsS at h ⊢
  rw [containsSub_correct] at h ⊢
  exact List.IsInfix.trans ((containsSub_correct _ _).mp (by decide)) h

/-- The good-title test at a closing fence: the lower-cased example
title contains `good`, `correct` or `do`. -/
def goodTitleB (t : String) : Bool :=
  containsS (lowerS t) "good" || containsS (lowerS t) "correct" || containsS (lowerS t) "do"

/-- The bad-title test at a closing fence: the lower-cased example title
contains `bad`, `incorrect` or `don't`. -/
def badTitleB (t : String) : Bool :=
  containsS (lowerS t) "bad" || containsS (lowerS t) "incorrect" ||
    containsS (lowerS t) dontPat

theorem closeExample_eq_good (ex : GuidelineExample) (c : String)
    (h : goodTitleB ex.title = true) :
    closeExample ex c = { ex with good := trimS c } := by
  unfold goodTitleB at h
  simp only [closeExample]
  rw [if_pos h]

theorem closeExample_eq_bad (ex : GuidelineExample) (c : String)
    (hg : goodTitleB ex.title = false) (hb : badTitleB ex.title = true) :
    closeExample ex c = { ex with bad := trimS c } := by
  unfold goodTitleB at hg
  unfold badTitleB at hb
  simp only [closeExample]
  rw [if_neg (by simp [hg]), if_pos hb]

theorem closeExample_eq_drop (ex : GuidelineExample) (c : String)
    (hg : goodTitleB ex.title = false) (hb : badTitleB ex.title = false) :
    closeExample ex c = ex := by
  unfold goodTitleB at hg
  unfold badTitleB at hb
  simp only [closeExample]
  rw [if_neg (by simp [hg]), if_neg (by simp [hb])]

theorem closeExample_title (ex : GuidelineExample) (c : String) :
    (closeExample ex c).title = ex.title := by
  simp only [closeExample]
  split_ifs <;> rfl

/-- Claim C2 (corrected): at the closing toggle the good-keyword test
runs first, and a title containing `don't` also contains the keyword
`do`; hence for every example whose title contains `don't` the
accumulated content is stored in the `good` field and the `bad` field is
left unchanged — never stored in `bad` as the claim asserts. -/
theorem C2_dont_goes_to_good (ex : GuidelineExample) (content : String)
    (h : containsS (lowerS ex.title) dontPat = true) :
    (closeExample ex content).good = trimS content ∧
      (closeExample ex content).bad = ex.bad := by
  have hdo : containsS (lowerS ex.title) "do" = true := contains_do_of_contains_dont _ h
  have hgood : goodTitleB ex.title = true := by
    unfold goodTitleB
    rw [hdo]
    simp
  rw [closeExample_eq_good ex content hgood]
  exact ⟨rfl, rfl⟩

/-- A title containing `don't`. -/
def dontTitle : String := String.mk ['D', 'o', 'n', apos, 't']

/-- Claim C2, witness: closing a fence for an example titled `Don't`
stores the content in `good` and leaves `bad` empty. -/
theorem C2_witness :
    containsS (lowerS dontTitle) dontPat = true ∧
      (closeExample { title := dontTitle, good := "", bad := "", explanation := "" } "x\n").good
        = trimS "x\n" ∧
      (closeExample { title := dontTitle, good := "", bad := "", explanation := "" } "x\n").bad
        = "" :=
  ⟨by decide,
    (C2_dont_goes_to_good { title := dontTitle, good := "", bad := "", explanation := "" }
      "x\n" (by decide)).1,
    (C2_dont_goes_to_good { title := dontTitle, good := "", bad := "", explanation := "" }
      "x\n" (by decide)).2⟩

/-- An example-header line whose text contains `don't`. -/
def dontHeaderLine : String :=
  String.mk ['D', 'o', 'n', apos, 't', ' ', 'E', 'x', 'a', 'm', 'p', 'l', 'e']

/-- A section with a `don't` example header followed by a fenced block. -/
def c2Doc : String := dontHeaderLine ++ "\n```\nx\n```\n"

/-- Claim C2, counterexample: parsing a section whose example header
contains `don't` puts the fenced content in `good` and leaves `bad`
empty, contradicting the claim that such content goes to the `bad`
field. -/
theorem C2_counterexample :
    containsS (lowerS dontHeaderLine) dontPat = true ∧
      ((parseSection c2Doc 1).map fun g => g.examples.map fun e => e.bad) = some [""] ∧
      ((parseSection c2Doc 1).map fun g => g.examples.map fun e => e.good) = some ["x"] :=
  ⟨by decide, by decide, by decide⟩

/-! ## The concrete document of claim C3 -/

/-- The test document of the specification's §8 property: one-line
fenced blocks under `Bad Example` and `Good Example` headings. -/
def c3Doc : String :=
  "## Naming\n### Bad Example\n```bad code```\n### Good Example\n```good code```"

/-- Claim C3 (corrected): the document splits into three sections (each
`###` heading starts a new section), and each one-line ` ```...``` `
line is consumed as a single opening fence toggle, so no code content is
ever captured: the result is three guidelines, each with an empty
examples list, rather than one guideline with two populated examples. -/
theorem C3_actual_output :
    parseContent c3Doc =
      [{ id := "guideline_1", title := "Naming", description := "Naming", category := "naming",
         priority := "medium", rules := [], examples := [] },
       { id := "guideline_2", title := "Bad Example", description := "Bad Example",
         category := "general", priority := "medium", rules := [], examples := [] },
       { id := "guideline_3", title := "Good Example", description := "Good Example",
         category := "general", priority := "medium", rules := [], examples := [] }] := by
  decide

/-- Claim C3, counterexample: no guideline parsed from the document
contains any example with `bad = "bad code"` or `good = "good code"`. -/
theorem C3_counterexample :
    ((parseContent c3Doc).any fun g =>
        g.examples.any fun e => e.bad == "bad code" || e.good == "good code") = false := by
  decide

/-! ## Consecutive fenced blocks under one example header (claim C10) -/

/-- The content accumulated while scanning a code-block body: each line
trimmed, with a newline appended. -/
def accum (b : List String) : String :=
  String.join (b.map (fun l => trimS l ++ "\n"))

/-- A code-block body line: after trimming, neither a heading line nor a
fence line. -/
def bodyOkB (l : String) : Bool :=
  !(isHeaderLineL (trimS l).data) && !(fenceLineB (trimS l))

theorem str_foldl_append (xs : List String) :
    ∀ a : String, xs.foldl (fun r s => r ++ s) a = a ++ String.join xs := by
  induction xs with
  | nil => intro a; simp [String.join, String.append_empty]
  | cons x xs ih =>
    intro a
    have hx : String.join (x :: xs) = x ++ String.join xs := by
      show List.foldl (fun r s => r ++ s) ("" ++ x) xs = _
      rw [ih ("" ++ x), String.empty_append]
    simp only [List.foldl_cons]
    rw [ih (a ++ x), hx, String.append_assoc]

theorem str_join_cons (x : String) (xs : List String) :
    String.join (x :: xs) = x ++ String.join xs := by
  show List.foldl (fun r s => r ++ s) ("" ++ x) xs = _
  rw [str_foldl_append, String.empty_append]

theorem foldl_accumulate (b : List String) :
    ∀ st : PSState, st.inCodeBlock = true → b.all bodyOkB = true →
      b.foldl parseLine st = { st with currentContent := st.currentContent ++ accum b } := by
  induction b with
  | nil =>
    intro st hcb _
    simp [accum, String.join, String.append_empty]
  | cons l ls ih =>
    intro st hcb hok
    simp only [List.all_cons, Bool.and_eq_true] at hok
    obtain ⟨hl, hls⟩ := hok
    unfold bodyOkB at hl
    simp only [Bool.and_eq_true, Bool.not_eq_true'] at hl
    obtain ⟨hh, hf⟩ := hl
    have hc : headerCaptureL (trimS l).data = none := by
      cases h2 : headerCaptureL (trimS l).data with
      | none => rfl
      | some v =>
        unfold isHeaderLineL at hh
        rw [h2] at hh
        exact absurd hh (by simp)
    rw [List.foldl_cons, parseLine_accumulate st l hc hf hcb]
    rw [ih { st with currentContent := st.currentContent ++ trimS l ++ "\n" } hcb hls]
    have hacc : accum (l :: ls) = (trimS l ++ "\n") ++ accum ls := by
      unfold accum
      rw [List.map_cons, str_join_cons]
    rw [hacc]
    simp [String.append_assoc]

theorem foldl_fencedBlock (st : PSState) (ex : GuidelineExample) (b : List String)
    (hcb : st.inCodeBlock = false) (hcc : st.currentContent = "")
    (hex : st.currentExample = some ex) (hok : b.all bodyOkB = true) :
    ("```" :: (b ++ ["```"])).foldl parseLine st
      = { st with
          currentExample := some (closeExample ex (accum b))
          currentContent := ""
          inCodeBlock := false } := by
  rw [List.foldl_cons]
  rw [parseLine_fence_open st "```" (by decide) (by decide) hcb]
  rw [List.foldl_append]
  rw [foldl_accumulate b _ rfl hok]
  rw [List.foldl_cons, List.foldl_nil]
  rw [parseLine_fence_close _ "```" (by decide) (by decide) rfl]
  simp only [hex, Option.getD_some, Option.map_some', hcc, String.empty_append]

/-- Claim C10 (confirmed): when two complete fenced blocks follow one
example header with no intervening header line, each closing fence
overwrites the classified field, so the field ends up equal to the
trimmed content of the last block — content of the first block under the
same header is lost. -/
theorem C10_last_block_wins (st : PSState) (ex : GuidelineExample) (b1 b2 : List String)
    (hcb : st.inCodeBlock = false) (hcc : st.currentContent = "")
    (hex : st.currentExample = some ex)
    (h1 : b1.all bodyOkB = true) (h2 : b2.all bodyOkB = true) :
    (goodTitleB ex.title = true →
      ((("```" :: (b1 ++ ["```"])) ++ ("```" :: (b2 ++ ["```"]))).foldl
          parseLine st).currentExample
        = some { ex with good := trimS (accum b2) }) ∧
    (goodTitleB ex.title = false → badTitleB ex.title = true →
      ((("```" :: (b1 ++ ["```"])) ++ ("```" :: (b2 ++ ["```"]))).foldl
          parseLine st).currentExample
        = some { ex with bad := trimS (accum b2) }) := by
  rw [List.foldl_append]
  rw [foldl_fencedBlock st ex b1 hcb hcc hex h1]
  rw [foldl_fencedBlock _ (closeExample ex (accum b1)) b2 rfl rfl rfl h2]
  constructor
  · intro hg
    show some (closeExample (closeExample ex (accum b1)) (accum b2)) = _
    rw [closeExample_eq_good ex (accum b1) hg]
    rw [closeExample_eq_good { ex with good := trimS (accum b1) } (accum b2) hg]
  · intro hg hb
    show some (closeExample (closeExample ex (accum b1)) (accum b2)) = _
    rw [closeExample_eq_bad ex (accum b1) hg hb]
    rw [closeExample_eq_bad { ex with bad := trimS (accum b1) } (accum b2) hg hb]

/-- A scan state just after an example header titled `Good Example`. -/
def c10Init : PSState :=
  { guideline := initGuideline 1, currentContent := "", inCodeBlock := false,
    currentExample := some { title := "Good Example", good := "", bad := "", explanation := "" } }

/-- Claim C10, witness: with bodies `a` then `b` under one good-titled
example, the final `good` field holds only the last block's content. -/
theorem C10_witness :
    ((("```" :: (["a"] ++ ["```"])) ++ ("```" :: (["b"] ++ ["```"]))).foldl
        parseLine c10Init).currentExample
      = some { title := "Good Example", good := trimS (accum ["b"]), bad := "",
               explanation := "" } :=
  (C10_last_block_wins c10Init
    { title := "Good Example", good := "", bad := "", explanation := "" }
    ["a"] ["b"] rfl rfl rfl (by decide) (by decide)).1 (by decide)

end GuidelineParser
